import Mathlib

/-!
Verification of the obsgit reconciliation engine.

This file gives a shallow embedding of the parts of obsgit that decide the
stated properties: the export plan of `Exporter.package` (exporter.py),
the import plan and commit discipline of `Importer.package` (importer.py), the
content-store operations of `StorageOBS` (storageobs.py) and `StorageLFS`
(storagelfs.py), the link-policy resolution and XML fallback of `AsyncOBS`
(asyncobs.py), the binary classifier `Exporter.is_binary`, and the changelog
stamping of `Importer.changes_git_entry` / `Importer.prepend_changes`.

Python sets of (filename, md5) tuples become `Finset (String × String)`;
Python lists become `List`; file-system and network effects become explicit
inputs (oracles) or outputs (traces of issued operations).
-/

namespace Obsgit

/-- A (filename, content-hash) pair as listed by the registry or the tree. -/
abbrev FileEntry := String × String

/-- The set of file names of a file set.
Python: `{filename for filename, _ in files_md5}`. -/
def filesNames (s : Finset FileEntry) : Finset String :=
  s.image Prod.fst

namespace Exporter

/-- Download plan of `Exporter.package` (exporter.py lines 173-177):
`files_download = {filename for filename, md5 in (files_md5_obs - files_md5_git)
                   if md5 not in self.storage.index}`. -/
def files_download (files_md5_obs files_md5_git : Finset FileEntry)
    (index : Finset String) : Finset String :=
  ((files_md5_obs \ files_md5_git).filter (fun e => e.2 ∉ index)).image Prod.fst

/-- Deletion plan of `Exporter.package` (exporter.py lines 179-181):
`files_delete = files_git - files_obs`, on the name sets. -/
def files_delete (files_md5_obs files_md5_git : Finset FileEntry) : Finset String :=
  filesNames files_md5_git \ filesNames files_md5_obs

/-- The filenames touched by neither the download nor the deletion plan:
everything else in the union of both sides' filenames is left as-is. -/
def unchangedFiles (files_md5_obs files_md5_git : Finset FileEntry)
    (index : Finset String) : Finset String :=
  (filesNames files_md5_obs ∪ filesNames files_md5_git).filter
    (fun f => f ∉ files_download files_md5_obs files_md5_git index ∧
              f ∉ files_delete files_md5_obs files_md5_git)

end Exporter

/-- C1: export set-difference correctness.  For every registry file set `R`,
tree file set `T` and content-store index `I`: `files_download` contains
exactly the filenames with an `(f, h) ∈ R` that is not in `T` and whose hash
is not indexed; `files_delete` contains exactly the filenames present in `T`
but absent from `R`; and downloads, deletions and the unchanged filenames
partition `R ∪ T`'s filenames with no overlap. -/
theorem export_plan_correct (R T : Finset FileEntry) (I : Finset String) :
    (∀ f, f ∈ Exporter.files_download R T I ↔
        ∃ h, (f, h) ∈ R ∧ (f, h) ∉ T ∧ h ∉ I) ∧
    (∀ f, f ∈ Exporter.files_delete R T ↔
        (∃ h, (f, h) ∈ T) ∧ ¬ ∃ h, (f, h) ∈ R) ∧
    Exporter.files_download R T I ∪ Exporter.files_delete R T ∪
        Exporter.unchangedFiles R T I = filesNames R ∪ filesNames T ∧
    Disjoint (Exporter.files_download R T I) (Exporter.files_delete R T) ∧
    Disjoint (Exporter.files_download R T I) (Exporter.unchangedFiles R T I) ∧
    Disjoint (Exporter.files_delete R T) (Exporter.unchangedFiles R T I) := by
  have hdl : ∀ f, f ∈ Exporter.files_download R T I ↔
      ∃ h, (f, h) ∈ R ∧ (f, h) ∉ T ∧ h ∉ I := by
    intro f
    simp only [Exporter.files_download, Finset.mem_image, Finset.mem_filter,
      Finset.mem_sdiff]
    constructor
    · rintro ⟨⟨a, b⟩, ⟨⟨hR, hT⟩, hI⟩, rfl⟩
      exact ⟨b, hR, hT, hI⟩
    · rintro ⟨h, hR, hT, hI⟩
      exact ⟨(f, h), ⟨⟨hR, hT⟩, hI⟩, rfl⟩
  have hnames : ∀ (S : Finset FileEntry) f, f ∈ filesNames S ↔ ∃ h, (f, h) ∈ S := by
    intro S f
    simp only [filesNames, Finset.mem_image]
    constructor
    · rintro ⟨⟨a, b⟩, hS, rfl⟩
      exact ⟨b, hS⟩
    · rintro ⟨h, hS⟩
      exact ⟨(f, h), hS, rfl⟩
  have hdel : ∀ f, f ∈ Exporter.files_delete R T ↔
      (∃ h, (f, h) ∈ T) ∧ ¬ ∃ h, (f, h) ∈ R := by
    intro f
    simp only [Exporter.files_delete, Finset.mem_sdiff, hnames]
  have hdl_sub : ∀ f, f ∈ Exporter.files_download R T I → ∃ h, (f, h) ∈ R := by
    intro f hf
    obtain ⟨h, hR, -, -⟩ := (hdl f).1 hf
    exact ⟨h, hR⟩
  have hdisj : Disjoint (Exporter.files_download R T I) (Exporter.files_delete R T) := by
    rw [Finset.disjoint_left]
    intro f hfd hfe
    exact ((hdel f).1 hfe).2 (hdl_sub f hfd)
  have hsub : Exporter.files_download R T I ∪ Exporter.files_delete R T ⊆
      filesNames R ∪ filesNames T := by
    intro f hf
    rcases Finset.mem_union.1 hf with hf | hf
    · exact Finset.mem_union.2 (Or.inl ((hnames R f).2 (hdl_sub f hf)))
    · exact Finset.mem_union.2 (Or.inr ((hnames T f).2 ((hdel f).1 hf).1))
  refine ⟨hdl, hdel, ?_, hdisj, ?_, ?_⟩
  · ext f
    simp only [Exporter.unchangedFiles, Finset.mem_union, Finset.mem_filter]
    constructor
    · rintro ((hf | hf) | ⟨hf, -⟩)
      · have := hsub (Finset.mem_union.2 (Or.inl hf)); simpa using this
      · have := hsub (Finset.mem_union.2 (Or.inr hf)); simpa using this
      · simpa using hf
    · intro hf
      by_cases hd : f ∈ Exporter.files_download R T I
      · exact Or.inl (Or.inl hd)
      by_cases he : f ∈ Exporter.files_delete R T
      · exact Or.inl (Or.inr he)
      · exact Or.inr ⟨hf, hd, he⟩
  · rw [Finset.disjoint_left]
    intro f hfd hfu
    exact ((Finset.mem_filter.1 hfu).2.1) hfd
  · rw [Finset.disjoint_left]
    intro f hfe hfu
    exact ((Finset.mem_filter.1 hfu).2.2) hfe

namespace Importer

/-- The outcome of one `Importer.package` run (importer.py lines 117-197):
the three computed sets and the optional `commitfilelist` command
(manifest file set and commit comment). -/
structure Plan where
  files_md5_upload : Finset FileEntry
  files_md5_transfer : Finset FileEntry
  files_delete : Finset String
  commit : Option (Finset FileEntry × String)

/-- The reconciliation computed by `Importer.package` (importer.py lines
125-197): `files_md5_upload = files_md5_git - files_md5_obs`,
`files_md5_transfer = files_md5_git_store - files_md5_obs`,
`files_delete = files_obs - files_git - files_git_store` (name sets), and a
`commitfilelist` command carrying the manifest
`files_md5_git | files_md5_git_store` and the comment `f"Import {head_hash}"`,
issued exactly when one of the three sets is non-empty.
`files_md5_git` is the tree listing with effective hashes (the `.changes`
files hashed after prepending the synthesized changelog entry, lines
106-115); `files_md5_git_store` is the pointer-manifest content. -/
def package (files_md5_obs files_md5_git files_md5_git_store : Finset FileEntry)
    (head_hash : String) : Plan :=
  let files_md5_upload := files_md5_git \ files_md5_obs
  let files_md5_transfer := files_md5_git_store \ files_md5_obs
  let files_delete :=
    (filesNames files_md5_obs \ filesNames files_md5_git) \
      filesNames files_md5_git_store
  { files_md5_upload := files_md5_upload
    files_md5_transfer := files_md5_transfer
    files_delete := files_delete
    commit :=
      if files_md5_upload ≠ ∅ ∨ files_md5_transfer ≠ ∅ ∨ files_delete ≠ ∅ then
        some (files_md5_git ∪ files_md5_git_store, "Import " ++ head_hash)
      else none }

/-- Number of registry write commands a plan performs: one upload per
`files_md5_upload` entry (importer.py lines 145-167), one transfer per
`files_md5_transfer` entry, one delete per `files_delete` name, plus the
`commitfilelist` command when issued. -/
def Plan.writeCommands (p : Plan) : Nat :=
  p.files_md5_upload.card + p.files_md5_transfer.card + p.files_delete.card +
    (if p.commit.isSome then 1 else 0)

/-- Modelled from the spec: the registry applies `commitfilelist` as "one
atomic replace file list command" (spec section 4.2), so after a run that
issued a commit the registry's file set is the submitted manifest; a run that
issued no commit performed no registry write and leaves the registry file set
unchanged.  The registry service itself is outside this repository. -/
def registryAfter (files_md5_obs : Finset FileEntry) (p : Plan) : Finset FileEntry :=
  match p.commit with
  | some (manifest, _) => manifest
  | none => files_md5_obs

end Importer

/-- C2: import idempotence and commit-iff-change.  A run of
`Importer.package` issues the `commitfilelist` command exactly when one of
the three computed sets is non-empty; when issued, the manifest is the union
of the tree entries (with effective hashes) and the pointer-file entries and
the comment is `"Import "` followed by the local history tip; and a second
run against the registry state left by the first run (tree and registry
unchanged in between) computes three empty sets and performs zero registry
write commands. -/
theorem import_commit_iff_and_idempotent
    (obs git store : Finset FileEntry) (head_hash : String) :
    ((Importer.package obs git store head_hash).commit.isSome ↔
      ((Importer.package obs git store head_hash).files_md5_upload ≠ ∅ ∨
       (Importer.package obs git store head_hash).files_md5_transfer ≠ ∅ ∨
       (Importer.package obs git store head_hash).files_delete ≠ ∅)) ∧
    ((Importer.package obs git store head_hash).commit = none ∨
      (Importer.package obs git store head_hash).commit =
        some (git ∪ store, "Import " ++ head_hash)) ∧
    ((Importer.package
        (Importer.registryAfter obs (Importer.package obs git store head_hash))
        git store head_hash).files_md5_upload = ∅ ∧
     (Importer.package
        (Importer.registryAfter obs (Importer.package obs git store head_hash))
        git store head_hash).files_md5_transfer = ∅ ∧
     (Importer.package
        (Importer.registryAfter obs (Importer.package obs git store head_hash))
        git store head_hash).files_delete = ∅ ∧
     (Importer.package
        (Importer.registryAfter obs (Importer.package obs git store head_hash))
        git store head_hash).writeCommands = 0) := by
  have hp : ∀ o g s : Finset FileEntry,
      Importer.package o g s head_hash =
        { files_md5_upload := g \ o
          files_md5_transfer := s \ o
          files_delete := (filesNames o \ filesNames g) \ filesNames s
          commit := if g \ o ≠ ∅ ∨ s \ o ≠ ∅ ∨
              (filesNames o \ filesNames g) \ filesNames s ≠ ∅ then
              some (g ∪ s, "Import " ++ head_hash) else none } :=
    fun _ _ _ => rfl
  have hkey : ∀ g s : Finset FileEntry,
      g \ (g ∪ s) = ∅ ∧ s \ (g ∪ s) = ∅ ∧
      (filesNames (g ∪ s) \ filesNames g) \ filesNames s = ∅ := by
    intro g s
    refine ⟨?_, ?_, ?_⟩
    · rw [Finset.sdiff_eq_empty_iff_subset]
      exact Finset.subset_union_left
    · rw [Finset.sdiff_eq_empty_iff_subset]
      exact Finset.subset_union_right
    · rw [Finset.sdiff_eq_empty_iff_subset]
      intro f hf
      have hmem : f ∈ filesNames g ∪ filesNames s := by
        simpa [filesNames, Finset.image_union] using (Finset.mem_sdiff.1 hf).1
      rcases Finset.mem_union.1 hmem with h | h
      · exact absurd h (Finset.mem_sdiff.1 hf).2
      · exact h
  by_cases h : git \ obs ≠ ∅ ∨ store \ obs ≠ ∅ ∨
      (filesNames obs \ filesNames git) \ filesNames store ≠ ∅
  · refine ⟨?_, ?_, ?_⟩
    · rw [hp]; dsimp only; rw [if_pos h]; simpa using h
    · rw [hp]; dsimp only; rw [if_pos h]; exact Or.inr rfl
    · have hra : Importer.registryAfter obs (Importer.package obs git store head_hash)
          = git ∪ store := by
        rw [hp]; simp only [Importer.registryAfter]; rw [if_pos h]
      rw [hra, hp]
      dsimp only
      obtain ⟨e1, e2, e3⟩ := hkey git store
      refine ⟨e1, e2, e3, ?_⟩
      simp only [Importer.Plan.writeCommands]
      dsimp only
      rw [e1, e2, e3]
      simp
  · have hra : Importer.registryAfter obs (Importer.package obs git store head_hash)
        = obs := by
      rw [hp]; simp only [Importer.registryAfter]; rw [if_neg h]
    refine ⟨?_, ?_, ?_⟩
    · rw [hp]; dsimp only; rw [if_neg h]
      exact ⟨fun hs => absurd hs (by simp), fun hc => absurd hc h⟩
    · rw [hp]; dsimp only; rw [if_neg h]; exact Or.inl rfl
    · rw [hra, hp]
      dsimp only
      push_neg at h
      obtain ⟨e1, e2, e3⟩ := h
      refine ⟨e1, e2, e3, ?_⟩
      simp only [Importer.Plan.writeCommands]
      dsimp only
      rw [e1, e2, e3]
      simp

/-- Sorting relation for the pointer-manifest lines: Python's `sorted` on
(filename, md5) tuples compares lexicographically. -/
def entryLe (a b : FileEntry) : Prop :=
  a.1 < b.1 ∨ (a.1 = b.1 ∧ a.2 ≤ b.2)

instance (a b : FileEntry) : Decidable (entryLe a b) := by
  unfold entryLe; exact inferInstance

namespace StorageOBS

/-- Mutable state of a `StorageOBS` instance, plus the trace of upload calls
it has issued: `self.index`, `self.sync`, and the `(filename_path, md5)`
arguments of every `self.obs.upload` call made by `_store`. -/
structure State where
  index : Finset String
  sync : Bool
  uploads : List FileEntry

/-- `StorageOBS._store` (storageobs.py lines 46-59): adds the md5 to the
index, clears the sync flag, and unconditionally issues an upload of the file
under its md5 — there is no check that the md5 was already indexed. -/
def _store (s : State) (filename_path md5 : String) : State :=
  { index := insert md5 s.index
    sync := false
    uploads := s.uploads ++ [(filename_path, md5)] }

/-- `StorageOBS.store_files` (storageobs.py lines 61-83): keeps only the
argument files that exist in the tree (`files_md5_exists`), calls `_store` on
each of those, deletes each of those from the tree, and writes the pointer
manifest listing every argument pair sorted by filename.  Returns the final
state, the tree deletions, and the manifest lines. -/
def store_files (s : State) (existsInTree : String → Bool)
    (files_md5 : List FileEntry) : State × List String × List FileEntry :=
  let files_md5_exists := files_md5.filter (fun e => existsInTree e.1)
  let s' := files_md5_exists.foldl (fun st e => _store st e.1 e.2) s
  (s', files_md5_exists.map Prod.fst, List.insertionSort entryLe files_md5)

theorem foldl_store_uploads (s : State) (l : List FileEntry) :
    (l.foldl (fun st e => _store st e.1 e.2) s).uploads = s.uploads ++ l := by
  induction l generalizing s with
  | nil => simp
  | cons a l ih =>
    rw [List.foldl_cons, ih]
    simp [_store]

end StorageOBS

/-- C3 counterexample: a call to the registry-backed store operation with a
file whose content hash `"h"` is already present in the index does issue an
upload call for that file (when the file is present in the tree), because
`_store` never consults the index before uploading. -/
theorem store_files_reuploads_indexed_hash :
    ("h" ∈ (StorageOBS.State.mk {"h"} true []).index) ∧
    (StorageOBS.store_files (StorageOBS.State.mk {"h"} true [])
        (fun _ => true) [("f", "h")]).1.uploads = [("f", "h")] := by
  constructor
  · simp
  · rfl

/-- C3 amended: in every call to `store_files`, the upload calls issued are
exactly the argument files present in the tree — a file absent from the tree
(in particular an index-satisfied file that was never downloaded) gets no
upload call, while a file present in the tree is uploaded even when its hash
is already in the index — and the written pointer manifest contains an entry
for every argument file regardless. -/
theorem store_files_upload_iff_in_tree (s : StorageOBS.State)
    (existsInTree : String → Bool) (files_md5 : List FileEntry) :
    (StorageOBS.store_files s existsInTree files_md5).1.uploads
      = s.uploads ++ files_md5.filter (fun e => existsInTree e.1) ∧
    ((StorageOBS.store_files s existsInTree files_md5).2.2).Perm files_md5 := by
  constructor
  · exact StorageOBS.foldl_store_uploads s _
  · exact List.perm_insertionSort entryLe files_md5

namespace StorageOBS

/-- A copy performed by `StorageOBS.transfer` (storageobs.py lines 31-44):
the stored object named by its md5 in the storage project/package is copied
to the destination registry location. -/
structure CopyAction where
  from_project : String
  from_package : String
  from_filename : String
  to_project : String
  to_package : String
  to_filename : String
deriving DecidableEq

/-- `StorageOBS.transfer` (storageobs.py lines 31-44): asserts that the md5
is in the index — a caller-visible assertion failure otherwise, with no copy
performed — and then copies the stored object to the destination. -/
def transfer (storage_project storage_package : String) (index : Finset String)
    (md5 project package filename : String) : Except String CopyAction :=
  if md5 ∈ index then
    Except.ok (CopyAction.mk storage_project storage_package md5
      project package filename)
  else
    Except.error ("File " ++ package ++ "/" ++ filename ++ " (" ++ md5 ++
      ") missing from storage")

end StorageOBS

namespace StorageLFS

/-- `StorageLFS.index` (storagelfs.py lines 13-16): "In this model the index
will be empty always." -/
def index : Finset String := ∅

/-- `StorageLFS.transfer` (storagelfs.py lines 59-60):
`def transfer(self, md5, project, package, filename, obs): pass` — a no-op
that never fails and issues no copy. -/
def transfer (md5 project package filename : String) :
    Except String (Option StorageOBS.CopyAction) :=
  Except.ok none

end StorageLFS

/-- C9 counterexample: in the tree-native (LFS) content-store variant, a
transfer whose hash is not present in the store's index (its index is always
empty) does not fail with an assertion: it silently does nothing and copies
nothing, so the claim does not hold for both variants. -/
theorem lfs_transfer_missing_hash_no_failure :
    ("h" ∉ StorageLFS.index) ∧
    StorageLFS.transfer "h" "prj" "pkg" "f" = Except.ok none := by
  constructor
  · simp [StorageLFS.index]
  · rfl

/-- C9 amended: the registry-backed variant's transfer fails fast with a
caller-visible assertion failure (and performs no copy) when the hash is not
in the index, and copies the stored object to the destination when it is;
the tree-native (LFS) variant's transfer is a no-op that never fails and
never copies. -/
theorem transfer_fail_fast (storage_project storage_package : String)
    (index : Finset String) (md5 project package filename : String) :
    (md5 ∈ index →
      StorageOBS.transfer storage_project storage_package index
          md5 project package filename
        = Except.ok (StorageOBS.CopyAction.mk storage_project storage_package
            md5 project package filename)) ∧
    (md5 ∉ index →
      StorageOBS.transfer storage_project storage_package index
          md5 project package filename
        = Except.error ("File " ++ package ++ "/" ++ filename ++ " (" ++ md5 ++
            ") missing from storage")) ∧
    StorageLFS.transfer md5 project package filename = Except.ok none := by
  refine ⟨fun hm => ?_, fun hm => ?_, rfl⟩
  · simp [StorageOBS.transfer, hm]
  · simp [StorageOBS.transfer, hm]

theorem transfer_fail_fast_witness :
    StorageOBS.transfer "sp" "sk" {"h"} "h" "p" "k" "f"
      = Except.ok (StorageOBS.CopyAction.mk "sp" "sk" "h" "p" "k" "f") ∧
    StorageOBS.transfer "sp" "sk" {"h"} "x" "p" "k" "f"
      = Except.error ("File " ++ "k" ++ "/" ++ "f" ++ " (" ++ "x" ++
          ") missing from storage") :=
  ⟨(transfer_fail_fast "sp" "sk" {"h"} "h" "p" "k" "f").1 (by simp),
   (transfer_fail_fast "sp" "sk" {"h"} "x" "p" "k" "f").2.1 (by simp)⟩

namespace Exporter

/-- `Exporter.BINARY` (exporter.py lines 8-21). -/
def BINARY : List String :=
  [".xz", ".gz", ".bz2", ".zip", ".gem", ".tgz", ".png", ".pdf", ".jar",
   ".oxt", ".whl", ".rpm"]

/-- `Exporter.NON_BINARY_EXCEPTIONS` (exporter.py line 22). -/
def NON_BINARY_EXCEPTIONS : List String := [".obscpio"]

/-- `Exporter.NON_BINARY` (exporter.py lines 23-67; `.xml` is listed twice in
the source). -/
def NON_BINARY : List String :=
  [".changes", ".spec", ".patch", ".diff", ".conf", ".yml", ".keyring",
   ".sig", ".sh", ".dif", ".txt", ".service", ".asc", ".cabal", ".desktop",
   ".xml", ".pom", ".SUSE", ".in", ".obsinfo", ".1", ".init", ".kiwi",
   ".rpmlintrc", ".rules", ".py", ".sysconfig", ".logrotate", ".pl", ".dsc",
   ".c", ".install", ".8", ".md", ".html", ".script", ".xml", ".test",
   ".cfg", ".el", ".pamd", ".sign", ".macros"]

/-- `Exporter.is_binary` (exporter.py lines 85-109), on the observable
features of the file: its suffix, its size in bytes, whether the leading
4 KB chunk decodes as UTF-8, and the chardet confidence reported for that
chunk when decoding fails.  Returns `true` when the file is classified
binary. -/
def is_binary (suffix : String) (size : Nat) (chunkDecodesUtf8 : Bool)
    (confidence : ℚ) : Bool :=
  if suffix ∈ BINARY ∨ suffix ∈ NON_BINARY_EXCEPTIONS then true
  else if suffix ∈ NON_BINARY then false
  else if size < 5 * 1024 then false
  else if chunkDecodesUtf8 then false
  else decide (confidence < 4 / 5)

end Exporter

/-- C5: binary classifier decision order.  `is_binary` returns binary for a
known binary extension or a known non-binary exception; otherwise text for a
known text extension; otherwise text for files under 5 KB — independently of
the decode and detection inputs, so no decoding attempt can change the
outcome; otherwise text when the leading 4 KB chunk decodes as UTF-8;
otherwise binary exactly when the detection confidence is below 0.8. -/
theorem is_binary_decision_order (suffix : String) (size : Nat)
    (chunkDecodesUtf8 : Bool) (confidence : ℚ) :
    (suffix ∈ Exporter.BINARY ∨ suffix ∈ Exporter.NON_BINARY_EXCEPTIONS →
      Exporter.is_binary suffix size chunkDecodesUtf8 confidence = true) ∧
    (suffix ∉ Exporter.BINARY → suffix ∉ Exporter.NON_BINARY_EXCEPTIONS →
      suffix ∈ Exporter.NON_BINARY →
      Exporter.is_binary suffix size chunkDecodesUtf8 confidence = false) ∧
    (suffix ∉ Exporter.BINARY → suffix ∉ Exporter.NON_BINARY_EXCEPTIONS →
      suffix ∉ Exporter.NON_BINARY → size < 5 * 1024 →
      Exporter.is_binary suffix size chunkDecodesUtf8 confidence = false) ∧
    (suffix ∉ Exporter.BINARY → suffix ∉ Exporter.NON_BINARY_EXCEPTIONS →
      suffix ∉ Exporter.NON_BINARY → ¬ size < 5 * 1024 →
      chunkDecodesUtf8 = true →
      Exporter.is_binary suffix size chunkDecodesUtf8 confidence = false) ∧
    (suffix ∉ Exporter.BINARY → suffix ∉ Exporter.NON_BINARY_EXCEPTIONS →
      suffix ∉ Exporter.NON_BINARY → ¬ size < 5 * 1024 →
      chunkDecodesUtf8 = false →
      (Exporter.is_binary suffix size chunkDecodesUtf8 confidence = true ↔
        confidence < 4 / 5)) := by
  refine ⟨fun h1 => ?_, fun h1 h2 h3 => ?_, fun h1 h2 h3 h4 => ?_,
    fun h1 h2 h3 h4 h5 => ?_, fun h1 h2 h3 h4 h5 => ?_⟩
  · simp [Exporter.is_binary, h1]
  · simp [Exporter.is_binary, h1, h2, h3]
  · simp [Exporter.is_binary, h1, h2, h3, h4]
  · simp [Exporter.is_binary, h1, h2, h3, h4, h5]
  · simp [Exporter.is_binary, h1, h2, h3, h4, h5]

theorem is_binary_decision_order_witness :
    Exporter.is_binary ".gz" 1 false 1 = true ∧
    Exporter.is_binary ".obscpio" 1 false 1 = true ∧
    Exporter.is_binary ".changes" 999999 false 0 = false ∧
    Exporter.is_binary ".weird" 1024 false 0 = false ∧
    Exporter.is_binary ".weird" 6144 true 0 = false ∧
    Exporter.is_binary ".weird" 6144 false 0 = true :=
  ⟨(is_binary_decision_order ".gz" 1 false 1).1 (by decide),
   (is_binary_decision_order ".obscpio" 1 false 1).1 (by decide),
   (is_binary_decision_order ".changes" 999999 false 0).2.1
     (by decide) (by decide) (by decide),
   (is_binary_decision_order ".weird" 1024 false 0).2.2.1
     (by decide) (by decide) (by decide) (by decide),
   (is_binary_decision_order ".weird" 6144 true 0).2.2.2.1
     (by decide) (by decide) (by decide) (by decide) rfl,
   ((is_binary_decision_order ".weird" 6144 false 0).2.2.2.2
     (by decide) (by decide) (by decide) (by decide) rfl).2 (by norm_num)⟩

namespace Importer

/-- `Importer.changes_git_entry` (importer.py lines 35-42): the synthesized
changelog entry for a package's RevisionRecord.  `commit_date` is the
already-formatted `strftime("%a %b %d %H:%M:%S UTC %Y")` string. -/
def changes_git_entry (commit_hash author email commit_date : String) : String :=
  let entry := String.mk (List.replicate 67 '-')
  let entry := entry ++ "\n" ++ commit_date ++ " - " ++ author ++
    " <" ++ email ++ ">"
  let entry := entry ++ "\n\n- Last git synchronization: " ++ commit_hash ++
    "\n\n"
  entry

/-- `Importer.prepend_changes` (importer.py lines 44-46): the synthesized
upload content is the changelog entry followed by the raw bytes of the tree's
stored file, which is only read, never written. -/
def prepend_changes (commit_hash author email commit_date raw : String) :
    String :=
  changes_git_entry commit_hash author email commit_date ++ raw

end Importer

/-- C6: changelog stamping round-trip.  For every RevisionRecord and raw
changelog file, the synthesized upload content is exactly a 67-dash
separator line, the formatted date/author line, a blank line, a
"- Last git synchronization: <commit id>" line and a blank line, followed by
the original file content unmodified — so the stored file's bytes reappear
untouched as the suffix, and the prepended header does not depend on them. -/
theorem prepend_changes_structure (commit_hash author email commit_date
    raw : String) :
    (Importer.prepend_changes commit_hash author email commit_date raw).data
      = List.replicate 67 '-' ++
        ("\n" ++ commit_date ++ " - " ++ author ++ " <" ++ email ++ ">" ++
          "\n\n- Last git synchronization: " ++ commit_hash ++ "\n\n").data ++
        raw.data ∧
    Importer.prepend_changes commit_hash author email commit_date raw
      = Importer.changes_git_entry commit_hash author email commit_date ++ raw ∧
    (Importer.changes_git_entry commit_hash author email commit_date).data.take 67
      = List.replicate 67 '-' := by
  refine ⟨?_, rfl, ?_⟩
  · simp [Importer.prepend_changes, Importer.changes_git_entry, String.data_append]
  · simp [Importer.changes_git_entry, String.data_append]

namespace AsyncOBS

/-- The configured link-resolution policy (`self.link`). -/
inductive LinkPolicy
  | never
  | auto
  | always
deriving DecidableEq

/-- An OBS directory document as consumed by `AsyncOBS` (asyncobs.py): the
`rev` attribute of the root, the `(name, md5)` attributes of its `entry`
elements, and the `xsrcmd5` attribute of its `linkinfo` element when that
element is present. -/
structure Directory where
  rev : Option String
  entries : List FileEntry
  linkinfo_xsrcmd5 : Option String
deriving DecidableEq

/-- The substitute document of `AsyncOBS._xml` (asyncobs.py line 177):
`ET.fromstring('<directory rev="latest"/>')`. -/
def fallbackDirectory : Directory :=
  { rev := some "latest", entries := [], linkinfo_xsrcmd5 := none }

/-- `AsyncOBS._xml` (asyncobs.py lines 172-177): any exception during the
HTTP fetch or the XML parse is swallowed and the fallback document is
returned instead. -/
def _xml (fetched : Except String Directory) : Directory :=
  match fetched with
  | Except.ok d => d
  | Except.error _ => fallbackDirectory

/-- `AsyncOBS.packages` (asyncobs.py lines 179-182): the names of the
directory's entries. -/
def packages (fetched : Except String Directory) : List String :=
  (_xml fetched).entries.map Prod.fst

/-- `root.find(".//entry[@name='_link']") is not None` (asyncobs.py
line 190). -/
def hasLinkEntry (d : Directory) : Bool :=
  d.entries.any (fun e => e.1 = "_link")

/-- Python `project_link and project_link != project` (asyncobs.py
lines 195 and 202): the link's `project` attribute is truthy (present and
non-empty) and names a project other than the package's own. -/
def crossLink (project : String) (project_link : Option String) : Bool :=
  match project_link with
  | some p => p ≠ "" && p ≠ project
  | none => false

/-- Result of `AsyncOBS.files_md5_revision`: the `(filename, md5)` listing,
the revision, and whether the cross-project-link error was printed. -/
structure ListResult where
  files_md5 : List FileEntry
  revision : Option String
  errorReported : Bool
deriving DecidableEq

/-- `AsyncOBS.files_md5_revision` (asyncobs.py lines 184-211).  `root` is the
directory fetched at `rev=latest` (already through `_xml`), `project_link`
the `project` attribute of the package's `_link` file, and `fetchAtRev` the
re-fetch of the directory at a given revision.  Returns `none` for the
`AttributeError` the source raises when it resolves a link whose directory
has no `linkinfo` element. -/
def files_md5_revision (link : LinkPolicy) (project : String)
    (root : Directory) (project_link : Option String)
    (fetchAtRev : String → Directory) : Option ListResult :=
  let revision := root.rev
  if hasLinkEntry root then
    if crossLink project project_link = true ∧ link = LinkPolicy.never then
      some ⟨[], none, true⟩
    else if (crossLink project project_link = true ∧ link = LinkPolicy.auto)
        ∨ link = LinkPolicy.always then
      match root.linkinfo_xsrcmd5 with
      | none => none
      | some revision' =>
        let root' := fetchAtRev revision'
        some ⟨root'.entries, some revision', false⟩
    else some ⟨root.entries, revision, false⟩
  else some ⟨root.entries, revision, false⟩

end AsyncOBS

/-- C4: link policy.  For a package whose listing has a `_link` entry whose
target project differs from the package's own project (`crossLink`), policy
`never` yields the empty file set with no revision and reports the error;
policy `always` resolves the listing at the link's target revision whenever a
link entry is present (cross-project or not); and policy `auto` resolves at
the target revision exactly when the link crosses project boundaries,
returning the local listing otherwise. -/
theorem link_policy_resolution (project : String) (root : AsyncOBS.Directory)
    (project_link : Option String) (xsrcmd5 : String)
    (fetchAtRev : String → AsyncOBS.Directory)
    (hlink : AsyncOBS.hasLinkEntry root = true)
    (hinfo : root.linkinfo_xsrcmd5 = some xsrcmd5) :
    (AsyncOBS.crossLink project project_link = true →
      AsyncOBS.files_md5_revision AsyncOBS.LinkPolicy.never project root
          project_link fetchAtRev = some ⟨[], none, true⟩) ∧
    AsyncOBS.files_md5_revision AsyncOBS.LinkPolicy.always project root
        project_link fetchAtRev
      = some ⟨(fetchAtRev xsrcmd5).entries, some xsrcmd5, false⟩ ∧
    AsyncOBS.files_md5_revision AsyncOBS.LinkPolicy.auto project root
        project_link fetchAtRev
      = (if AsyncOBS.crossLink project project_link = true then
          some ⟨(fetchAtRev xsrcmd5).entries, some xsrcmd5, false⟩
        else some ⟨root.entries, root.rev, false⟩) := by
  refine ⟨fun hcross => ?_, ?_, ?_⟩
  · simp [AsyncOBS.files_md5_revision, hlink, hcross]
  · simp [AsyncOBS.files_md5_revision, hlink, hinfo]
  · by_cases hcross : AsyncOBS.crossLink project project_link = true
    · simp [AsyncOBS.files_md5_revision, hlink, hcross, hinfo]
    · simp [AsyncOBS.files_md5_revision, hlink, hcross]

theorem link_policy_resolution_witness :
    AsyncOBS.files_md5_revision AsyncOBS.LinkPolicy.never "prj"
        (AsyncOBS.Directory.mk (some "7") [("_link", "m0")] (some "xs"))
        (some "other") (fun r => AsyncOBS.Directory.mk (some r) [("a", "m1")] none)
      = some ⟨[], none, true⟩ ∧
    AsyncOBS.files_md5_revision AsyncOBS.LinkPolicy.always "prj"
        (AsyncOBS.Directory.mk (some "7") [("_link", "m0")] (some "xs"))
        (some "other") (fun r => AsyncOBS.Directory.mk (some r) [("a", "m1")] none)
      = some ⟨[("a", "m1")], some "xs", false⟩ ∧
    AsyncOBS.files_md5_revision AsyncOBS.LinkPolicy.auto "prj"
        (AsyncOBS.Directory.mk (some "7") [("_link", "m0")] (some "xs"))
        (some "prj") (fun r => AsyncOBS.Directory.mk (some r) [("a", "m1")] none)
      = some ⟨[("_link", "m0")], some "7", false⟩ :=
  ⟨(link_policy_resolution "prj" (AsyncOBS.Directory.mk (some "7")
        [("_link", "m0")] (some "xs")) (some "other") "xs"
        (fun r => AsyncOBS.Directory.mk (some r) [("a", "m1")] none)
        (by decide) rfl).1 (by decide),
   (link_policy_resolution "prj" (AsyncOBS.Directory.mk (some "7")
        [("_link", "m0")] (some "xs")) (some "other") "xs"
        (fun r => AsyncOBS.Directory.mk (some r) [("a", "m1")] none)
        (by decide) rfl).2.1,
   by
    have h := (link_policy_resolution "prj" (AsyncOBS.Directory.mk (some "7")
        [("_link", "m0")] (some "xs")) (some "prj") "xs"
        (fun r => AsyncOBS.Directory.mk (some r) [("a", "m1")] none)
        (by decide) rfl).2.2
    rw [h]
    decide⟩

/-- C10: listing-failure fallback.  When the HTTP fetch or XML parse of a
listing fails, the adapter substitutes the empty `<directory rev="latest"/>`
document: listing the packages of an unreachable or nonexistent project
returns the empty list, and listing a package's files returns the empty file
list with revision `"latest"` and no error reported — an output also produced
for a genuinely fetched empty directory document, so the two are
indistinguishable. -/
theorem xml_error_fallback (e : String) (link : AsyncOBS.LinkPolicy)
    (project : String) (project_link : Option String)
    (fetchAtRev : String → AsyncOBS.Directory) :
    AsyncOBS.packages (Except.error e) = [] ∧
    AsyncOBS.files_md5_revision link project (AsyncOBS._xml (Except.error e))
        project_link fetchAtRev = some ⟨[], some "latest", false⟩ ∧
    (∃ d : AsyncOBS.Directory, AsyncOBS._xml (Except.ok d) = d ∧
      AsyncOBS.files_md5_revision link project d project_link fetchAtRev
        = some ⟨[], some "latest", false⟩) := by
  refine ⟨rfl, ?_, ⟨AsyncOBS.fallbackDirectory, rfl, ?_⟩⟩ <;>
    simp [AsyncOBS.files_md5_revision, AsyncOBS._xml, AsyncOBS.fallbackDirectory,
      AsyncOBS.hasLinkEntry]

namespace Exporter

/-- The observable operations of a whole-project export run
(`Exporter.project`, exporter.py lines 111-125).  `treeCommit` stands for a
commit request to the Tree Adapter (the `Git` class, git.py) — the `Git`
class exposes no commit operation and neither `Exporter.project` nor
`Exporter.package` requests one, so the event never occurs in a run's trace;
`storageCommit` is the single `self.storage.commit()` call. -/
inductive ProjectEvent
  | packageExport (name : String)
  | packageDelete (name : String)
  | treeCommit (name : String)
  | storageCommit
deriving DecidableEq

def isTreeCommit : ProjectEvent → Bool
  | ProjectEvent.treeCommit _ => true
  | _ => false

def isPackageExport : ProjectEvent → Bool
  | ProjectEvent.packageExport _ => true
  | _ => false

def isStorageCommit : ProjectEvent → Bool
  | ProjectEvent.storageCommit => true
  | _ => false

/-- `Exporter.project` (exporter.py lines 111-125): gathers the per-package
exports for every OBS package and the local deletions of the git-only
packages (`packages_git - packages_obs`), and — only after that gather has
completed — awaits the single `self.storage.commit()`. -/
def project_run (packages_obs packages_git : List String) : List ProjectEvent :=
  let packages_delete := packages_git.filter (fun p => p ∉ packages_obs)
  packages_obs.map ProjectEvent.packageExport ++
    packages_delete.map ProjectEvent.packageDelete ++
    [ProjectEvent.storageCommit]

end Exporter

/-- C7 counterexample: exporting a project with two registry packages
requests no commit at all from the Tree Adapter — the trace contains zero
tree-commit requests against two exported packages — so "one commit from the
Tree Adapter per exported package" fails. -/
theorem project_run_no_per_package_commit :
    (Obsgit.Exporter.project_run ["a", "b"] ["a", "c"]).countP
        Exporter.isTreeCommit = 0 ∧
    (Obsgit.Exporter.project_run ["a", "b"] ["a", "c"]).countP
        Exporter.isPackageExport = 2 ∧
    (Obsgit.Exporter.project_run ["a", "b"] ["a", "c"]).countP
        Exporter.isTreeCommit ≠
      (Obsgit.Exporter.project_run ["a", "b"] ["a", "c"]).countP
        Exporter.isPackageExport := by
  refine ⟨?_, ?_, ?_⟩ <;> decide

/-- C7 amended: exporting a whole project requests no per-package commit from
the Tree Adapter (the `Git` class has no commit operation); it requests
exactly one project-level commit — the single content-store commit — and that
commit is the last operation, issued only after all per-package export and
package-deletion operations have completed. -/
theorem project_run_single_final_commit (packages_obs packages_git : List String) :
    (Exporter.project_run packages_obs packages_git).countP
        Exporter.isTreeCommit = 0 ∧
    (Exporter.project_run packages_obs packages_git).countP
        Exporter.isStorageCommit = 1 ∧
    (Exporter.project_run packages_obs packages_git).getLast?
      = some Exporter.ProjectEvent.storageCommit := by
  have hz : ∀ (p : Exporter.ProjectEvent → Bool)
      (g : String → Exporter.ProjectEvent) (l : List String),
      (∀ x, p (g x) = false) → (l.map g).countP p = 0 := by
    intro p g l hg
    rw [List.countP_eq_zero]
    intro a ha
    rcases List.mem_map.1 ha with ⟨x, -, rfl⟩
    simp [hg x]
  refine ⟨?_, ?_, ?_⟩
  · rw [Exporter.project_run]
    rw [List.countP_append, List.countP_append,
      hz _ _ _ (fun x => rfl), hz _ _ _ (fun x => rfl)]
    rfl
  · rw [Exporter.project_run]
    rw [List.countP_append, List.countP_append,
      hz _ _ _ (fun x => rfl), hz _ _ _ (fun x => rfl)]
    rfl
  · simp [Exporter.project_run]

namespace Exporter

/-- `asyncio.gather` with the default `return_exceptions=False` (exporter.py
lines 183-195): the first raised exception propagates to the awaiting
coroutine. -/
def gatherE : List (Except String Unit) → Except String Unit
  | [] => Except.ok ()
  | Except.ok _ :: rest => gatherE rest
  | Except.error e :: _ => Except.error e

/-- Outcome of one `Exporter.package` transfer-and-store pass: whether the
store phase (exporter.py lines 197-210) was reached, and the propagated
failure if any. -/
structure PackageRun where
  storePhaseRan : Bool
  failure : Option String
deriving DecidableEq

/-- The transfer and store phases of `Exporter.package` (exporter.py lines
183-210): the downloads and deletions are gathered; if any of them raises,
the exception propagates out of `await asyncio.gather(...)` and the
subsequent store phase is never reached. -/
def package_run (files_download files_delete : List String)
    (download : String → Except String Unit)
    (delete : String → Except String Unit) : PackageRun :=
  match gatherE (files_download.map download ++ files_delete.map delete) with
  | Except.ok _ => { storePhaseRan := true, failure := none }
  | Except.error e => { storePhaseRan := false, failure := some e }

theorem gatherE_ok_iff (l : List (Except String Unit)) :
    gatherE l = Except.ok () ↔ ∀ x ∈ l, x = Except.ok () := by
  induction l with
  | nil => simp [gatherE]
  | cons a rest ih =>
    cases a with
    | ok u => cases u; simp [gatherE, ih]
    | error e => simp [gatherE]

end Exporter

/-- C8 counterexample: in a package export where the download of file `a`
fails and the download of file `b` succeeds, the store phase of the
package does not execute and the failure propagates out of the run — the
affected file is not skipped with the rest proceeding, as the claim states. -/
theorem package_failure_aborts_store_phase :
    (Exporter.package_run ["a", "b"] []
        (fun f => if f = "a" then Except.error "boom" else Except.ok ())
        (fun _ => Except.ok ())).storePhaseRan = false ∧
    (Exporter.package_run ["a", "b"] []
        (fun f => if f = "a" then Except.error "boom" else Except.ok ())
        (fun _ => Except.ok ())).failure = some "boom" := by
  refine ⟨?_, ?_⟩ <;> rfl

/-- C8 amended: if any individual file download or delete of a package export
fails, the package's store phase does not execute and the failure propagates
out of the package run, aborting it (and the enclosing project gather); the
store phase runs exactly when every download and every delete succeeds. -/
theorem package_run_store_iff_all_ok (files_download files_delete : List String)
    (download : String → Except String Unit)
    (delete : String → Except String Unit) :
    ((Exporter.package_run files_download files_delete download
        delete).storePhaseRan = true ↔
      ((∀ f ∈ files_download, download f = Except.ok ()) ∧
       ∀ f ∈ files_delete, delete f = Except.ok ())) ∧
    ((Exporter.package_run files_download files_delete download
        delete).failure = none ↔
      (Exporter.package_run files_download files_delete download
        delete).storePhaseRan = true) := by
  have hkey : (Exporter.package_run files_download files_delete download
      delete).storePhaseRan = true ↔
      Exporter.gatherE (files_download.map download ++ files_delete.map delete)
        = Except.ok () := by
    rw [Exporter.package_run]
    cases hg : Exporter.gatherE (files_download.map download ++
        files_delete.map delete) with
    | ok u => cases u; simp
    | error e => simp
  constructor
  · rw [hkey, Exporter.gatherE_ok_iff]
    constructor
    · intro hall
      exact ⟨fun f hf => hall _ (List.mem_append.2 (Or.inl
              (List.mem_map_of_mem _ hf))),
             fun f hf => hall _ (List.mem_append.2 (Or.inr
              (List.mem_map_of_mem _ hf)))⟩
    · rintro ⟨h1, h2⟩ x hx
      rcases List.mem_append.1 hx with hx | hx
      · rcases List.mem_map.1 hx with ⟨f, hf, rfl⟩
        exact h1 f hf
      · rcases List.mem_map.1 hx with ⟨f, hf, rfl⟩
        exact h2 f hf
  · rw [Exporter.package_run]
    cases hg : Exporter.gatherE (files_download.map download ++
        files_delete.map delete) with
    | ok u => cases u; simp
    | error e => simp

theorem export_plan_correct_witness :
    ("a" ∈ Exporter.files_download {("a", "h1")} {("a", "h2")}
        (∅ : Finset String)) ∧
    Disjoint (Exporter.files_download {("a", "h1")} {("a", "h2")}
        (∅ : Finset String))
      (Exporter.files_delete {("a", "h1")} {("a", "h2")}) :=
  ⟨((export_plan_correct {("a", "h1")} {("a", "h2")} ∅).1 "a").2
      ⟨"h1", by decide, by decide, by decide⟩,
   (export_plan_correct {("a", "h1")} {("a", "h2")} ∅).2.2.2.1⟩

theorem import_commit_iff_witness :
    (Importer.package ∅ {("f", "h")} ∅ "abc").commit = none ∨
    (Importer.package ∅ {("f", "h")} ∅ "abc").commit
      = some ({("f", "h")} ∪ ∅, "Import " ++ "abc") :=
  (import_commit_iff_and_idempotent ∅ {("f", "h")} ∅ "abc").2.1

theorem store_files_upload_iff_in_tree_witness :
    (StorageOBS.store_files (StorageOBS.State.mk ∅ true []) (fun _ => false)
        [("f", "h")]).1.uploads
      = [] ++ [(("f", "h") : FileEntry)].filter (fun _ => false) ∧
    ((StorageOBS.store_files (StorageOBS.State.mk ∅ true []) (fun _ => false)
        [("f", "h")]).2.2).Perm [("f", "h")] :=
  store_files_upload_iff_in_tree (StorageOBS.State.mk ∅ true [])
    (fun _ => false) [("f", "h")]

theorem prepend_changes_structure_witness :
    (Importer.prepend_changes "h1" "au" "em" "dt" "raw").data
      = List.replicate 67 '-' ++
        ("\n" ++ "dt" ++ " - " ++ "au" ++ " <" ++ "em" ++ ">" ++
          "\n\n- Last git synchronization: " ++ "h1" ++ "\n\n").data ++
        "raw".data ∧
    Importer.prepend_changes "h1" "au" "em" "dt" "raw"
      = Importer.changes_git_entry "h1" "au" "em" "dt" ++ "raw" ∧
    (Importer.changes_git_entry "h1" "au" "em" "dt").data.take 67
      = List.replicate 67 '-' :=
  prepend_changes_structure "h1" "au" "em" "dt" "raw"

theorem project_run_single_final_commit_witness :
    (Exporter.project_run ["a"] ["b"]).countP Exporter.isTreeCommit = 0 ∧
    (Exporter.project_run ["a"] ["b"]).countP Exporter.isStorageCommit = 1 ∧
    (Exporter.project_run ["a"] ["b"]).getLast?
      = some Exporter.ProjectEvent.storageCommit :=
  project_run_single_final_commit ["a"] ["b"]

theorem package_run_store_iff_all_ok_witness :
    (Exporter.package_run ["a"] ["b"] (fun _ => Except.ok ())
        (fun _ => Except.ok ())).storePhaseRan = true :=
  (package_run_store_iff_all_ok ["a"] ["b"] (fun _ => Except.ok ())
      (fun _ => Except.ok ())).1.2 ⟨fun _ _ => rfl, fun _ _ => rfl⟩

theorem xml_error_fallback_witness :
    AsyncOBS.packages (Except.error "down") = [] ∧
    AsyncOBS.files_md5_revision AsyncOBS.LinkPolicy.auto "prj"
        (AsyncOBS._xml (Except.error "down")) none
        (fun _ => AsyncOBS.fallbackDirectory)
      = some ⟨[], some "latest", false⟩ :=
  ⟨(xml_error_fallback "down" AsyncOBS.LinkPolicy.auto "prj" none
      (fun _ => AsyncOBS.fallbackDirectory)).1,
   (xml_error_fallback "down" AsyncOBS.LinkPolicy.auto "prj" none
      (fun _ => AsyncOBS.fallbackDirectory)).2.1⟩

end Obsgit
